import Mathlib

/-!
Shallow embedding of the n8n-nodes-stagehand repository core: the per-item
operation dispatchers of the Playwright node (`nodes/Playwright/Playwright.node.ts`,
full version with advanced timeout option) and the Stagehand node
(`nodes/Stagehand/Stagehand.node.ts`, version with `fieldsToZodSchema`), together
with the field-list schema normalizer.

Modelling conventions:
* The external browser-automation and language-model services are opaque. Every
  remote invocation (`chromium.connectOverCDP`, `page.goto`, `stagehand.init`, ...)
  is represented by a call record; an environment `env : Nat → Call → Option String`
  decides, per item index, whether the call succeeds (`none`) or throws with a given
  message (`some msg`), mirroring a JS promise rejection.
* Playwright session acquisition is modelled at two granularities:
  `pwProcessItem` treats `connectOverCDP` plus the context/page setup as one
  step (exact whenever the post-connect setup performs no further remote call
  or does not reject), and `pwProcessItemFull` models `newContext()` /
  `newPage()` as their own fallible calls outside the try/finally, as in the
  source; the two agree on the produced result whenever the setup steps do
  not reject. Stagehand acquisition is the single awaited `init` call.
  `browser.close()` / `stagehand.close()` is modelled as a non-failing teardown
  of the external handle.
* Execution returns the trace of remote calls (each paired with its outcome) and
  either the list of per-item result records or the propagated JS exception.
* Zod schema values are modelled by the inductive `ZType`; the JS object used as
  the shape of `z.object` is modelled as an association list where key assignment
  overwrites in place (JS object property-assignment semantics).
-/

/-- A Zod schema value as constructed by the Stagehand node. -/
inductive ZType where
  | zstring : ZType
  | znumber : ZType
  | zboolean : ZType
  | zarray : ZType → ZType
  | zany : ZType
  | zoptional : ZType → ZType
  | zobject : List (String × ZType) → Bool → ZType

/-- One entry of the field-list schema descriptor (`type Field` in the source). -/
structure StField where
  fieldName : String
  fieldType : String
  optional : Bool
deriving DecidableEq

/-- JS object property assignment on an association list: overwrite in place when
the key is present, append otherwise. -/
def recordSet (shape : List (String × ZType)) (k : String) (v : ZType) :
    List (String × ZType) :=
  match shape with
  | [] => [(k, v)]
  | (k', v') :: rest => if k' = k then (k, v) :: rest else (k', v') :: recordSet rest k v

/-- The switch on `fieldType` inside `fieldsToZodSchema`: `array` becomes
`z.array(z.any())`, `object` becomes `z.object({}).passthrough()`, anything
outside the enumeration becomes `z.any()`. -/
def fieldTypeToZod (ft : String) : ZType :=
  if ft = "string" then ZType.zstring
  else if ft = "number" then ZType.znumber
  else if ft = "boolean" then ZType.zboolean
  else if ft = "array" then ZType.zarray ZType.zany
  else if ft = "object" then ZType.zobject [] true
  else ZType.zany

/-- The per-entry resolution: the kind switch followed by the `.optional()` wrap. -/
def fieldResolve (f : StField) : ZType :=
  if f.optional then ZType.zoptional (fieldTypeToZod f.fieldType) else fieldTypeToZod f.fieldType

/-- `Stagehand.fieldsToZodSchema`: fold the field list into a `Record`-keyed shape
and wrap it in `z.object` (not passthrough). -/
def fieldsToZodSchema (fields : List StField) : ZType :=
  ZType.zobject
    (fields.foldl (fun shape f => recordSet shape f.fieldName (fieldResolve f)) []) false

/-- Projection of the shape of a resolved object schema. -/
def zodShape : ZType → List (String × ZType)
  | ZType.zobject shape _ => shape
  | _ => []

/-- One per-item output record of a node: either a pushed json entry
`{operation, result?, binary?}` or the error record pushed by a catch block. -/
inductive ResultItem where
  | ok : String → Option String → Bool → ResultItem
  | err : String → ResultItem
deriving DecidableEq

/-- Performing one awaited remote call inside a try block: on success the given
result record is produced, on rejection the exception propagates. The trace
records the call together with its outcome. -/
def callStep {α : Type} (env : α → Option String) (c : α) (ok : ResultItem) :
    List (α × Option String) × Except String ResultItem :=
  match env c with
  | none => ([(c, none)], Except.ok ok)
  | some e => ([(c, some e)], Except.error e)

/-- The parameter bag of one input item of the Playwright node, with the
defaults of `getNodeParameter` already applied by the host. -/
structure PwItem where
  operation : String
  cdpUrl : String
  timeout : Nat
  url : String
  fullPage : Bool
  quality : Nat
  selector : String
  text : String
  key : String
  value : String
  state : String
  duration : Nat
  script : String

/-- The page actions the Playwright switch can await, with their arguments. -/
inductive PwAction where
  | goto : String → Nat → PwAction
  | screenshot : Bool → Nat → Nat → PwAction
  | click : String → Nat → PwAction
  | fill : String → String → Nat → PwAction
  | selectOption : String → String → Nat → PwAction
  | press : String → String → Nat → PwAction
  | waitForTimeout : Nat → PwAction
  | waitForSelector : String → Nat → PwAction
  | waitForLoadState : String → Nat → PwAction
  | evaluate : String → Nat → PwAction
deriving DecidableEq

/-- The remote calls the Playwright node can make: the `connectOverCDP` call,
the post-connect setup calls `browser.newContext()` and `context.newPage()`
(awaited and fallible, performed outside the try/finally when the remote side
has no open context resp. page), a page action, and session release
(`browser.close()`). -/
inductive PwCall where
  | connect : String → PwCall
  | newContext : PwCall
  | newPage : PwCall
  | action : PwAction → PwCall
  | close : PwCall
deriving DecidableEq

/-- The declared UI lower bound on the screenshot quality parameter
(`typeOptions.minValue`). -/
def pwQualityMinValue : Nat := 0

/-- The declared UI upper bound on the screenshot quality parameter
(`typeOptions.maxValue`). -/
def pwQualityMaxValue : Nat := 100

/-- The `switch (operation)` statement of the Playwright `try` block, modelled
as an equality chain in source order. Each case reads its parameters, awaits
one page call and pushes one record; the dispatch therefore yields the call to
make together with the record pushed on its success. The `waitForLoadState`
case checks the state against the fixed enumeration before calling; the
default case throws `Unsupported operation`. -/
def pwDispatch (item : PwItem) : Except String (PwAction × ResultItem) :=
  if item.operation = "goto" then
    Except.ok (PwAction.goto item.url item.timeout, ResultItem.ok item.operation none false)
  else if item.operation = "screenshot" then
    Except.ok (PwAction.screenshot item.fullPage item.quality item.timeout,
      ResultItem.ok item.operation none true)
  else if item.operation = "click" then
    Except.ok (PwAction.click item.selector item.timeout, ResultItem.ok item.operation none false)
  else if item.operation = "fill" ∨ item.operation = "type" then
    Except.ok (PwAction.fill item.selector item.text item.timeout,
      ResultItem.ok item.operation none false)
  else if item.operation = "selectOption" then
    Except.ok (PwAction.selectOption item.selector item.value item.timeout,
      ResultItem.ok item.operation none false)
  else if item.operation = "press" then
    Except.ok (PwAction.press item.selector item.key item.timeout,
      ResultItem.ok item.operation none false)
  else if item.operation = "waitForTimeout" then
    Except.ok (PwAction.waitForTimeout item.duration, ResultItem.ok item.operation none false)
  else if item.operation = "waitForSelector" then
    Except.ok (PwAction.waitForSelector item.selector item.timeout,
      ResultItem.ok item.operation none false)
  else if item.operation = "waitForLoadState" then
    if item.state = "load" ∨ item.state = "domcontentloaded" ∨ item.state = "networkidle" then
      Except.ok (PwAction.waitForLoadState item.state item.timeout,
        ResultItem.ok item.operation none false)
    else
      Except.error ("Unsupported load state: " ++ item.state)
  else if item.operation = "evaluate" then
    Except.ok (PwAction.evaluate item.script item.timeout, ResultItem.ok item.operation none false)
  else
    Except.error ("Unsupported operation: " ++ item.operation)

/-- The body of the Playwright `try` block: dispatch on the operation, then
await the dispatched remote call; a throw from the dispatch itself (the
load-state check or the default case) performs no remote call. -/
def pwBody (env : PwCall → Option String) (item : PwItem) :
    List (PwCall × Option String) × Except String ResultItem :=
  match pwDispatch item with
  | Except.error e => ([], Except.error e)
  | Except.ok (a, r) => callStep env (PwCall.action a) r

/-- Processing of one item of the Playwright node: the `executablePath`
short-circuit, then `connectOverCDP` (outside the try block: a rejection
propagates with nothing pushed), then the try/catch/finally around the switch.
The catch converts any body error into a pushed error record, the finally
closes the browser. Acquisition is one step here: this is exact when the
remote side already has an open context and page (the setup then performs no
further remote call) and, more generally, whenever the setup steps do not
reject; `pwProcessItemFull` below models the fallible `newContext()` /
`newPage()` setup calls separately. -/
def pwProcessItem (env : PwCall → Option String) (execPath : String) (item : PwItem) :
    List (PwCall × Option String) × Except String ResultItem :=
  if item.operation = "executablePath" then
    ([], Except.ok (ResultItem.ok item.operation (some execPath) false))
  else
    match env (PwCall.connect item.cdpUrl) with
    | some e => ([(PwCall.connect item.cdpUrl, some e)], Except.error e)
    | none =>
        ((PwCall.connect item.cdpUrl, none) :: (pwBody env item).1 ++ [(PwCall.close, none)],
          match (pwBody env item).2 with
          | Except.ok res => Except.ok res
          | Except.error e => Except.ok (ResultItem.err e))

/-- The per-item loop of `Playwright.execute`, indexed by the current item
position. A propagated exception aborts the loop: the remaining items are not
processed and no result list is returned. -/
def pwExecuteAux (env : Nat → PwCall → Option String) (execPath : String) :
    Nat → List PwItem → List (PwCall × Option String) × Except String (List ResultItem)
  | _, [] => ([], Except.ok [])
  | k, item :: rest =>
    ((pwProcessItem (env k) execPath item).1 ++
        (match (pwProcessItem (env k) execPath item).2 with
          | Except.error _ => []
          | Except.ok _ => (pwExecuteAux env execPath (k + 1) rest).1),
      match (pwProcessItem (env k) execPath item).2 with
      | Except.error e => Except.error e
      | Except.ok res =>
          match (pwExecuteAux env execPath (k + 1) rest).2 with
          | Except.ok l => Except.ok (res :: l)
          | Except.error e => Except.error e)

/-- `Playwright.execute`: run the per-item loop over all input items. -/
def pwExecute (env : Nat → PwCall → Option String) (execPath : String) (items : List PwItem) :
    List (PwCall × Option String) × Except String (List ResultItem) :=
  pwExecuteAux env execPath 0 items

/-- The result record produced for one item when its processing does not
propagate an exception (total by mapping the propagated case to an error
record; the lemmas only use it under a no-propagation hypothesis). -/
def pwOkResult (env : PwCall → Option String) (execPath : String) (item : PwItem) : ResultItem :=
  match (pwProcessItem env execPath item).2 with
  | Except.ok r => r
  | Except.error e => ResultItem.err e

/-- The expected output list of the Playwright loop from position `k` on. -/
def pwResultsFrom (env : Nat → PwCall → Option String) (execPath : String) :
    Nat → List PwItem → List ResultItem
  | _, [] => []
  | k, item :: rest => pwOkResult (env k) execPath item :: pwResultsFrom env execPath (k + 1) rest

/-- Calls that are neither session acquisition nor session release. -/
def pwIsAction : PwCall → Bool
  | PwCall.action _ => true
  | _ => false

/-- A successful session acquisition event (a `connectOverCDP` call that did
not throw). -/
def isPwAcquireEv : PwCall × Option String → Bool
  | (PwCall.connect _, none) => true
  | _ => false

/-- A session release event (a `browser.close()` call). -/
def isPwReleaseEv : PwCall × Option String → Bool
  | (PwCall.close, _) => true
  | _ => false

/-- Number of successful session acquisitions in a trace. -/
def pwAcquires (tr : List (PwCall × Option String)) : Nat := tr.countP isPwAcquireEv

/-- Number of session releases in a trace. -/
def pwReleases (tr : List (PwCall × Option String)) : Nat := tr.countP isPwReleaseEv

/-- Processing of one item with the acquisition phase at full granularity:
after `connectOverCDP` succeeds, the source runs
`browser.contexts()[0] ?? (await browser.newContext())` and
`context.pages()[0] ?? (await context.newPage())`, still outside the
try/finally. Each step is one fallible call here: the environment answering
`none` covers both reuse of an existing context/page and a successful
creation, `some e` a rejected creation. A rejection in either step propagates
with the connected browser never closed, since the finally has not been
entered yet. -/
def pwProcessItemFull (env : PwCall → Option String) (execPath : String) (item : PwItem) :
    List (PwCall × Option String) × Except String ResultItem :=
  if item.operation = "executablePath" then
    ([], Except.ok (ResultItem.ok item.operation (some execPath) false))
  else
    match env (PwCall.connect item.cdpUrl) with
    | some e => ([(PwCall.connect item.cdpUrl, some e)], Except.error e)
    | none =>
        match env PwCall.newContext with
        | some e =>
            ([(PwCall.connect item.cdpUrl, none), (PwCall.newContext, some e)], Except.error e)
        | none =>
            match env PwCall.newPage with
            | some e =>
                ([(PwCall.connect item.cdpUrl, none), (PwCall.newContext, none),
                  (PwCall.newPage, some e)], Except.error e)
            | none =>
                ((PwCall.connect item.cdpUrl, none) :: (PwCall.newContext, none) ::
                    (PwCall.newPage, none) :: (pwBody env item).1 ++ [(PwCall.close, none)],
                  match (pwBody env item).2 with
                  | Except.ok res => Except.ok res
                  | Except.error e => Except.ok (ResultItem.err e))

/-- The per-item loop of `Playwright.execute` over the full-granularity item
processing. -/
def pwExecuteFullAux (env : Nat → PwCall → Option String) (execPath : String) :
    Nat → List PwItem → List (PwCall × Option String) × Except String (List ResultItem)
  | _, [] => ([], Except.ok [])
  | k, item :: rest =>
    ((pwProcessItemFull (env k) execPath item).1 ++
        (match (pwProcessItemFull (env k) execPath item).2 with
          | Except.error _ => []
          | Except.ok _ => (pwExecuteFullAux env execPath (k + 1) rest).1),
      match (pwProcessItemFull (env k) execPath item).2 with
      | Except.error e => Except.error e
      | Except.ok res =>
          match (pwExecuteFullAux env execPath (k + 1) rest).2 with
          | Except.ok l => Except.ok (res :: l)
          | Except.error e => Except.error e)

/-- `Playwright.execute` over the full-granularity item processing. -/
def pwExecuteFull (env : Nat → PwCall → Option String) (execPath : String)
    (items : List PwItem) :
    List (PwCall × Option String) × Except String (List ResultItem) :=
  pwExecuteFullAux env execPath 0 items

/-- Runtime kind of a JS property value, as far as the duck-typed credential
checks inspect it: a string, or something of another type. -/
inductive JsVal where
  | str : String → JsVal
  | nonString : JsVal
deriving DecidableEq

/-- The object attached on the language-model input connection, as inspected by
the duck-typed asserts: its `lc_namespace` array and the (possibly absent)
`model` and `apiKey` properties. `none` at the outer level means no model
connection is attached (`getInputConnectionData` returned `undefined`). -/
structure ModelConn where
  lc_namespace : List String
  model : Option JsVal
  apiKey : Option JsVal

/-- `Stagehand.isChatInstance`: read `lc_namespace` (defaulting to `[]` for a
missing object via `?? []`) and test membership of `"chat_models"`. -/
def isChatInstance (m : Option ModelConn) : Bool :=
  (match m with
    | some mc => mc.lc_namespace
    | none => ([] : List String)).contains "chat_models"

/-- Whether a possibly-absent property holds a string (`typeof v === 'string'`). -/
def jsIsString : Option JsVal → Bool
  | some (JsVal.str _) => true
  | _ => false

/-- The string held by a property, after the string checks have passed. -/
def jsStr : Option JsVal → String
  | some (JsVal.str s) => s
  | _ => ""

/-- The sequence of `assert` calls at the top of `Stagehand.execute`, in source
order; the first failing assert throws its message. The inner `none` branch is
dead code: `isChatInstance none` is `false`. -/
def stChecks (m : Option ModelConn) : Except String ModelConn :=
  if isChatInstance m then
    match m with
    | none => Except.error "A Chat Model is required"
    | some mc =>
        if mc.model.isNone then Except.error "Model is not defined in the input connection data"
        else if mc.apiKey.isNone then
          Except.error "API Key is not defined in the input connection data"
        else if jsIsString mc.model = false then Except.error "Model must be a string"
        else if jsIsString mc.apiKey = false then Except.error "API Key must be a string"
        else Except.ok mc
  else Except.error "A Chat Model is required"

/-- The credential shape the spec calls a ModelCredential: a chat-model object
carrying a string model name and a string apiKey. -/
def isValidCred (m : Option ModelConn) : Bool :=
  isChatInstance m &&
    (match m with
      | some mc => jsIsString mc.model && jsIsString mc.apiKey
      | none => false)

/-- Whether the pattern matches at the start of the text. -/
def matchesAt : List Char → List Char → Bool
  | [], _ => true
  | _ :: _, [] => false
  | p :: ps, c :: cs => p = c && matchesAt ps cs

/-- Whether the pattern occurs somewhere in the text. -/
def occursIn (pat : List Char) : List Char → Bool
  | [] => pat.isEmpty
  | c :: cs => matchesAt pat (c :: cs) || occursIn pat cs

/-- JS `String.prototype.includes`, as substring occurrence on the character
lists. -/
def strIncludes (s pat : String) : Bool := occursIn pat.data s.data

/-- The `modelName` passed to the Stagehand constructor:
`provider + '/' + model.model`, where the provider is `"deepseek"` when the
model name contains it and `lc_namespace[2]` otherwise (JS yields `undefined`
for an out-of-range index, which string concatenation renders as
`"undefined"`). -/
def stModelName (mc : ModelConn) : String :=
  (if strIncludes (jsStr mc.model) "deepseek" then "deepseek"
    else mc.lc_namespace.getD 2 "undefined") ++ "/" ++ jsStr mc.model

/-- The parameter bag of one input item of the Stagehand node. -/
structure StItem where
  operation : String
  cdpUrl : String
  enableCaching : Bool
  instruction : String
  schemaSource : String
  fields : List StField
  exampleJson : String
  jsonSchema : String
  manualZod : String

/-- The page actions the Stagehand switch can await, with their arguments. -/
inductive StAction where
  | act : String → StAction
  | extract : String → ZType → StAction
  | observe : String → StAction

/-- The remote calls the Stagehand node can make: session acquisition
(`new Stagehand` + `init`, carrying the constructor configuration), a page
action, or session release (`stagehand.close()`). -/
inductive StCall where
  | init : String → String → Bool → StCall
  | action : StAction → StCall
  | close : StCall

/-- The `switch (schemaSource)` inside the extract case. The `fieldList` branch
runs `fieldsToZodSchema`; the `example`, `jsonSchema` and `manual` branches
evaluate external library output (`jsonToZod`, `jsonSchemaToZod`, `new
Function`), modelled by the oracle `se` tagged with the branch name; the
default branch throws. A thrown error here propagates out of the extract case
(there is no catch around it). -/
def stResolveSchema (se : String → String → Except String ZType) (item : StItem) :
    Except String ZType :=
  if item.schemaSource = "fieldList" then Except.ok (fieldsToZodSchema item.fields)
  else if item.schemaSource = "example" then se "example" item.exampleJson
  else if item.schemaSource = "jsonSchema" then se "jsonSchema" item.jsonSchema
  else if item.schemaSource = "manual" then se "manual" item.manualZod
  else Except.error ("Unsupported schema source: " ++ item.schemaSource)

/-- The `switch (operation)` statement of the Stagehand `try` block (act,
extract, observe, default throw), in source order: each case resolves its
parameters (for extract, the schema first) and awaits one page call, pushing
one record on success. -/
def stDispatch (se : String → String → Except String ZType) (item : StItem) :
    Except String (StAction × ResultItem) :=
  if item.operation = "act" then
    Except.ok (StAction.act item.instruction, ResultItem.ok item.operation none false)
  else if item.operation = "extract" then
    match stResolveSchema se item with
    | Except.error e => Except.error e
    | Except.ok schema =>
        Except.ok (StAction.extract item.instruction schema,
          ResultItem.ok item.operation none false)
  else if item.operation = "observe" then
    Except.ok (StAction.observe item.instruction, ResultItem.ok item.operation none false)
  else
    Except.error ("Unsupported operation: " ++ item.operation)

/-- The body of the Stagehand `try` block: dispatch on the operation, then
await the dispatched remote call; a throw from the dispatch itself (schema
resolution or the default case) performs no remote call. -/
def stBody (env : StCall → Option String) (se : String → String → Except String ZType)
    (item : StItem) : List (StCall × Option String) × Except String ResultItem :=
  match stDispatch se item with
  | Except.error e => ([], Except.error e)
  | Except.ok (a, r) => callStep env (StCall.action a) r

/-- Processing of one item of `Stagehand.execute`: construct and init the
Stagehand session (outside the try block: a rejected `init` propagates), then
the try/finally around the switch. There is no catch: a body error propagates
after the `finally` has closed the session. -/
def stProcessItem (env : StCall → Option String) (se : String → String → Except String ZType)
    (mc : ModelConn) (item : StItem) :
    List (StCall × Option String) × Except String ResultItem :=
  match env (StCall.init item.cdpUrl (stModelName mc) item.enableCaching) with
  | some e => ([(StCall.init item.cdpUrl (stModelName mc) item.enableCaching, some e)],
      Except.error e)
  | none =>
      ((StCall.init item.cdpUrl (stModelName mc) item.enableCaching, none) ::
          (stBody env se item).1 ++ [(StCall.close, none)],
        (stBody env se item).2)

/-- The per-item loop of `Stagehand.execute`. A propagated exception aborts the
loop: remaining items are not processed and no result list is returned. -/
def stExecuteAux (env : Nat → StCall → Option String)
    (se : String → String → Except String ZType) (mc : ModelConn) :
    Nat → List StItem → List (StCall × Option String) × Except String (List ResultItem)
  | _, [] => ([], Except.ok [])
  | k, item :: rest =>
    ((stProcessItem (env k) se mc item).1 ++
        (match (stProcessItem (env k) se mc item).2 with
          | Except.error _ => []
          | Except.ok _ => (stExecuteAux env se mc (k + 1) rest).1),
      match (stProcessItem (env k) se mc item).2 with
      | Except.error e => Except.error e
      | Except.ok res =>
          match (stExecuteAux env se mc (k + 1) rest).2 with
          | Except.ok l => Except.ok (res :: l)
          | Except.error e => Except.error e)

/-- `Stagehand.execute`: the credential asserts run once before the loop; if
they throw, no item is processed and no session is initialized. -/
def stExecute (model : Option ModelConn) (env : Nat → StCall → Option String)
    (se : String → String → Except String ZType) (items : List StItem) :
    List (StCall × Option String) × Except String (List ResultItem) :=
  match stChecks model with
  | Except.error e => ([], Except.error e)
  | Except.ok mc => stExecuteAux env se mc 0 items

/-- The result record produced for one Stagehand item when its processing does
not propagate (total; used under a no-propagation hypothesis). -/
def stOkResult (env : StCall → Option String) (se : String → String → Except String ZType)
    (mc : ModelConn) (item : StItem) : ResultItem :=
  match (stProcessItem env se mc item).2 with
  | Except.ok r => r
  | Except.error e => ResultItem.err e

/-- The expected output list of the Stagehand loop from position `k` on. -/
def stResultsFrom (env : Nat → StCall → Option String)
    (se : String → String → Except String ZType) (mc : ModelConn) :
    Nat → List StItem → List ResultItem
  | _, [] => []
  | k, item :: rest => stOkResult (env k) se mc item :: stResultsFrom env se mc (k + 1) rest

/-- Stagehand calls that are neither session acquisition nor session release. -/
def stIsAction : StCall → Bool
  | StCall.action _ => true
  | _ => false

/-- A successful Stagehand session acquisition event (an `init` that did not
throw). -/
def isStAcquireEv : StCall × Option String → Bool
  | (StCall.init _ _ _, none) => true
  | _ => false

/-- A Stagehand session release event (a `stagehand.close()` call). -/
def isStReleaseEv : StCall × Option String → Bool
  | (StCall.close, _) => true
  | _ => false

/-- Number of successful session acquisitions in a Stagehand trace. -/
def stAcquires (tr : List (StCall × Option String)) : Nat := tr.countP isStAcquireEv

/-- Number of session releases in a Stagehand trace. -/
def stReleases (tr : List (StCall × Option String)) : Nat := tr.countP isStReleaseEv

/-- Whether an exception-or-value is a value. -/
def exceptIsOk : Except String ResultItem → Bool
  | Except.ok _ => true
  | Except.error _ => false

/-- The operation identifiers the Playwright node dispatches on (the
`executablePath` short-circuit plus the switch cases). -/
def pwKnownOperations : List String :=
  ["executablePath", "goto", "screenshot", "click", "fill", "type", "selectOption",
   "press", "waitForTimeout", "waitForSelector", "waitForLoadState", "evaluate"]

/-- Replace the operation label of a successful result record, leaving error
outcomes and error records unchanged. -/
def relabelResult (op : String) : Except String ResultItem → Except String ResultItem
  | Except.ok (ResultItem.ok _ p b) => Except.ok (ResultItem.ok op p b)
  | r => r

/-- A concrete Playwright parameter bag used as base for concrete runs. -/
def pwSampleItem : PwItem :=
  { operation := "goto", cdpUrl := "ws://localhost:9222", timeout := 30000,
    url := "https://example.com", fullPage := false, quality := 80,
    selector := "css=button", text := "hello", key := "Enter", value := "v",
    state := "load", duration := 1000, script := "1 + 1" }

/-- An environment in which every remote call succeeds. -/
def pwOkEnv : Nat → PwCall → Option String := fun _ _ => none

/-- A concrete attached chat model with string model name and apiKey. -/
def mcSample : ModelConn :=
  { lc_namespace := ["langchain", "chat_models", "openai"],
    model := some (JsVal.str "gpt-4o"), apiKey := some (JsVal.str "sk-test") }

/-- A concrete Stagehand parameter bag (an act request). -/
def stSampleItem : StItem :=
  { operation := "act", cdpUrl := "ws://localhost:9222", enableCaching := true,
    instruction := "click the button", schemaSource := "fieldList", fields := [],
    exampleJson := "", jsonSchema := "", manualZod := "" }

/-- A schema-evaluation oracle for runs that never reach the dynamic schema
branches. -/
def seSample : String → String → Except String ZType :=
  fun _ _ => Except.error "schema oracle unused"

/-- An environment in which every Stagehand remote call succeeds. -/
def stOkEnv : Nat → StCall → Option String := fun _ _ => none

/-- An environment in which `page.act` rejects and everything else succeeds. -/
def stActFailEnv : Nat → StCall → Option String := fun _ c =>
  match c with
  | StCall.action (StAction.act _) => some "act failed"
  | _ => none

/-- The field list of the worked schema example. -/
def sampleFields : List StField :=
  [{ fieldName := "title", fieldType := "string", optional := false },
   { fieldName := "tags", fieldType := "array", optional := true }]

/-- The unknown-operation request of the worked example. -/
def pwTeleportItem : PwItem := { pwSampleItem with operation := "teleport" }

/-- A capture-screenshot request with quality 150, outside the declared bound. -/
def pwScreenshot150Item : PwItem :=
  { pwSampleItem with operation := "screenshot", quality := 150 }

/-- A wait-for-load-state request with a state outside the fixed enumeration. -/
def pwBogusStateItem : PwItem :=
  { pwSampleItem with operation := "waitForLoadState", state := "bogus" }

/-- A fill request. -/
def pwFillItem : PwItem := { pwSampleItem with operation := "fill" }

/-- A type request with the same parameters as `pwFillItem`. -/
def pwTypeItem : PwItem := { pwSampleItem with operation := "type" }

/-- A click request. -/
def pwClickItem : PwItem := { pwSampleItem with operation := "click" }

/-- An environment in which `page.click` rejects and everything else succeeds. -/
def pwClickFailEnv : Nat → PwCall → Option String := fun _ c =>
  match c with
  | PwCall.action (PwAction.click _ _) => some "selector not found"
  | _ => none

/-- An environment in which `connectOverCDP` rejects. -/
def pwFailConnEnv : Nat → PwCall → Option String := fun _ _ => some "ECONNREFUSED"

/-- An environment in which `context.newPage()` rejects after a successful
`connectOverCDP` and context setup; everything else succeeds. -/
def pwPageFailEnv : Nat → PwCall → Option String := fun _ c =>
  match c with
  | PwCall.newPage => some "Target closed"
  | _ => none

lemma callStep_trace {α : Type} (env : α → Option String) (c : α) (r : ResultItem) :
    (callStep env c r).1 = [(c, env c)] := by
  unfold callStep
  cases env c <;> rfl

lemma pwBody_actions (env : PwCall → Option String) (item : PwItem) :
    ∀ e ∈ (pwBody env item).1, pwIsAction e.1 = true := by
  intro e he
  unfold pwBody at he
  cases hd : pwDispatch item with
  | error err => rw [hd] at he; simp at he
  | ok p =>
      obtain ⟨a, r⟩ := p
      rw [hd] at he
      simp only [callStep_trace, List.mem_singleton] at he
      subst he
      rfl

lemma pwEv_not_acquire {e : PwCall × Option String} (h : pwIsAction e.1 = true) :
    isPwAcquireEv e = false ∧ isPwReleaseEv e = false := by
  obtain ⟨c, o⟩ := e
  cases c <;> cases o <;> simp [pwIsAction] at h ⊢ <;>
    simp [isPwAcquireEv, isPwReleaseEv]

lemma pwBody_counts (env : PwCall → Option String) (item : PwItem) :
    pwAcquires (pwBody env item).1 = 0 ∧ pwReleases (pwBody env item).1 = 0 := by
  constructor
  · refine List.countP_eq_zero.mpr ?_
    intro e he
    simp [(pwEv_not_acquire (pwBody_actions env item e he)).1]
  · refine List.countP_eq_zero.mpr ?_
    intro e he
    simp [(pwEv_not_acquire (pwBody_actions env item e he)).2]

lemma pwProcessItem_balanced (env : PwCall → Option String) (execPath : String) (item : PwItem) :
    pwAcquires (pwProcessItem env execPath item).1 =
      pwReleases (pwProcessItem env execPath item).1 := by
  unfold pwProcessItem
  split_ifs with hop
  · rfl
  · cases henv : env (PwCall.connect item.cdpUrl) with
    | some e => rfl
    | none =>
        have hb := pwBody_counts env item
        simp only [pwAcquires, pwReleases] at hb ⊢
        simp [List.countP_cons, List.countP_append, isPwAcquireEv, isPwReleaseEv, hb.1, hb.2]

lemma pwExecuteAux_balanced (env : Nat → PwCall → Option String) (execPath : String) :
    ∀ (k : Nat) (items : List PwItem),
      pwAcquires (pwExecuteAux env execPath k items).1 =
        pwReleases (pwExecuteAux env execPath k items).1 := by
  intro k items
  induction items generalizing k with
  | nil => rfl
  | cons item rest ih =>
      have hi := pwProcessItem_balanced (env k) execPath item
      have h2 := ih (k + 1)
      unfold pwExecuteAux
      cases hr : (pwProcessItem (env k) execPath item).2 with
      | error e =>
          simp only [pwAcquires, pwReleases, List.countP_append] at hi h2 ⊢
          simp [hr, hi]
      | ok res =>
          simp only [pwAcquires, pwReleases, List.countP_append] at hi h2 ⊢
          simp [hr, hi, h2]

lemma pwProcessItemFull_balanced (env : PwCall → Option String) (execPath : String)
    (item : PwItem) (hc : env PwCall.newContext = none) (hp : env PwCall.newPage = none) :
    pwAcquires (pwProcessItemFull env execPath item).1 =
      pwReleases (pwProcessItemFull env execPath item).1 := by
  unfold pwProcessItemFull
  split_ifs with hop
  · rfl
  · cases henv : env (PwCall.connect item.cdpUrl) with
    | some e => rfl
    | none =>
        rw [hc, hp]
        have hb := pwBody_counts env item
        simp only [pwAcquires, pwReleases] at hb ⊢
        simp [List.countP_cons, List.countP_append, isPwAcquireEv, isPwReleaseEv, hb.1, hb.2]

lemma pwProcessItemFull_rel_le (env : PwCall → Option String) (execPath : String)
    (item : PwItem) :
    pwReleases (pwProcessItemFull env execPath item).1 ≤
      pwAcquires (pwProcessItemFull env execPath item).1 := by
  unfold pwProcessItemFull
  split_ifs with hop
  · exact Nat.le_refl _
  · cases henv : env (PwCall.connect item.cdpUrl) with
    | some e =>
        simp [pwAcquires, pwReleases, List.countP_cons, isPwAcquireEv, isPwReleaseEv]
    | none =>
        cases hc : env PwCall.newContext with
        | some e =>
            simp [pwAcquires, pwReleases, List.countP_cons, isPwAcquireEv, isPwReleaseEv]
        | none =>
            cases hp : env PwCall.newPage with
            | some e =>
                simp [pwAcquires, pwReleases, List.countP_cons, isPwAcquireEv, isPwReleaseEv]
            | none =>
                have hb := pwBody_counts env item
                simp only [pwAcquires, pwReleases] at hb ⊢
                simp [List.countP_cons, List.countP_append, isPwAcquireEv, isPwReleaseEv,
                  hb.1, hb.2]

lemma pwExecuteFullAux_balanced (env : Nat → PwCall → Option String) (execPath : String)
    (hc : ∀ i, env i PwCall.newContext = none) (hp : ∀ i, env i PwCall.newPage = none) :
    ∀ (k : Nat) (items : List PwItem),
      pwAcquires (pwExecuteFullAux env execPath k items).1 =
        pwReleases (pwExecuteFullAux env execPath k items).1 := by
  intro k items
  induction items generalizing k with
  | nil => rfl
  | cons item rest ih =>
      have hi := pwProcessItemFull_balanced (env k) execPath item (hc k) (hp k)
      have h2 := ih (k + 1)
      unfold pwExecuteFullAux
      cases hr : (pwProcessItemFull (env k) execPath item).2 with
      | error e =>
          simp only [pwAcquires, pwReleases, List.countP_append] at hi h2 ⊢
          simp [hr, hi]
      | ok res =>
          simp only [pwAcquires, pwReleases, List.countP_append] at hi h2 ⊢
          simp [hr, hi, h2]

lemma pwExecuteFullAux_rel_le (env : Nat → PwCall → Option String) (execPath : String) :
    ∀ (k : Nat) (items : List PwItem),
      pwReleases (pwExecuteFullAux env execPath k items).1 ≤
        pwAcquires (pwExecuteFullAux env execPath k items).1 := by
  intro k items
  induction items generalizing k with
  | nil => exact Nat.le_refl _
  | cons item rest ih =>
      have hi := pwProcessItemFull_rel_le (env k) execPath item
      have h2 := ih (k + 1)
      unfold pwExecuteFullAux
      cases hr : (pwProcessItemFull (env k) execPath item).2 with
      | error e =>
          simp only [pwAcquires, pwReleases, List.countP_append, List.countP_nil] at hi h2 ⊢
          omega
      | ok res =>
          simp only [pwAcquires, pwReleases, List.countP_append, List.countP_nil] at hi h2 ⊢
          omega

lemma pwProcessItemFull_snd_eq (env : PwCall → Option String) (execPath : String)
    (item : PwItem) (hc : env PwCall.newContext = none) (hp : env PwCall.newPage = none) :
    (pwProcessItemFull env execPath item).2 = (pwProcessItem env execPath item).2 := by
  unfold pwProcessItemFull pwProcessItem
  split_ifs with hop
  · rfl
  · cases henv : env (PwCall.connect item.cdpUrl) with
    | some e => rfl
    | none => rw [hc, hp]

lemma stBody_actions (env : StCall → Option String)
    (se : String → String → Except String ZType) (item : StItem) :
    ∀ e ∈ (stBody env se item).1, stIsAction e.1 = true := by
  intro e he
  unfold stBody at he
  cases hd : stDispatch se item with
  | error err => rw [hd] at he; simp at he
  | ok p =>
      obtain ⟨a, r⟩ := p
      rw [hd] at he
      simp only [callStep_trace, List.mem_singleton] at he
      subst he
      rfl

lemma stEv_not_acquire {e : StCall × Option String} (h : stIsAction e.1 = true) :
    isStAcquireEv e = false ∧ isStReleaseEv e = false := by
  obtain ⟨c, o⟩ := e
  cases c <;> cases o <;> simp [stIsAction] at h ⊢ <;>
    simp [isStAcquireEv, isStReleaseEv]

lemma stBody_counts (env : StCall → Option String)
    (se : String → String → Except String ZType) (item : StItem) :
    stAcquires (stBody env se item).1 = 0 ∧ stReleases (stBody env se item).1 = 0 := by
  constructor
  · refine List.countP_eq_zero.mpr ?_
    intro e he
    simp [(stEv_not_acquire (stBody_actions env se item e he)).1]
  · refine List.countP_eq_zero.mpr ?_
    intro e he
    simp [(stEv_not_acquire (stBody_actions env se item e he)).2]

lemma stProcessItem_balanced (env : StCall → Option String)
    (se : String → String → Except String ZType) (mc : ModelConn) (item : StItem) :
    stAcquires (stProcessItem env se mc item).1 =
      stReleases (stProcessItem env se mc item).1 := by
  unfold stProcessItem
  cases henv : env (StCall.init item.cdpUrl (stModelName mc) item.enableCaching) with
  | some e => rfl
  | none =>
      have hb := stBody_counts env se item
      simp only [stAcquires, stReleases] at hb ⊢
      simp [List.countP_cons, List.countP_append, isStAcquireEv, isStReleaseEv, hb.1, hb.2]

lemma stExecuteAux_balanced (env : Nat → StCall → Option String)
    (se : String → String → Except String ZType) (mc : ModelConn) :
    ∀ (k : Nat) (items : List StItem),
      stAcquires (stExecuteAux env se mc k items).1 =
        stReleases (stExecuteAux env se mc k items).1 := by
  intro k items
  induction items generalizing k with
  | nil => rfl
  | cons item rest ih =>
      have hi := stProcessItem_balanced (env k) se mc item
      have h2 := ih (k + 1)
      unfold stExecuteAux
      cases hr : (stProcessItem (env k) se mc item).2 with
      | error e =>
          simp only [stAcquires, stReleases, List.countP_append] at hi h2 ⊢
          simp [hr, hi]
      | ok res =>
          simp only [stAcquires, stReleases, List.countP_append] at hi h2 ⊢
          simp [hr, hi, h2]

lemma pwProcessItem_conn_ok (env : PwCall → Option String) (execPath : String) (item : PwItem)
    (h : env (PwCall.connect item.cdpUrl) = none) :
    (pwProcessItem env execPath item).2 = Except.ok (pwOkResult env execPath item) := by
  unfold pwOkResult pwProcessItem
  split_ifs with hop
  · rfl
  · rw [h]
    cases hb : (pwBody env item).2 <;> rfl

lemma pwExecuteAux_results (env : Nat → PwCall → Option String) (execPath : String)
    (hconn : ∀ i u, env i (PwCall.connect u) = none) :
    ∀ (k : Nat) (items : List PwItem),
      (pwExecuteAux env execPath k items).2 =
        Except.ok (pwResultsFrom env execPath k items) := by
  intro k items
  induction items generalizing k with
  | nil => rfl
  | cons item rest ih =>
      have h1 := pwProcessItem_conn_ok (env k) execPath item (hconn k item.cdpUrl)
      have h2 := ih (k + 1)
      simp only [pwExecuteAux, pwResultsFrom, h1, h2]

lemma pwResultsFrom_length (env : Nat → PwCall → Option String) (execPath : String) :
    ∀ (k : Nat) (items : List PwItem),
      (pwResultsFrom env execPath k items).length = items.length := by
  intro k items
  induction items generalizing k with
  | nil => rfl
  | cons item rest ih => simp [pwResultsFrom, ih]

lemma pwResultsFrom_getq (env : Nat → PwCall → Option String) (execPath : String) :
    ∀ (k i : Nat) (items : List PwItem),
      (pwResultsFrom env execPath k items).get? i =
        (items.get? i).map (pwOkResult (env (k + i)) execPath) := by
  intro k i items
  induction items generalizing k i with
  | nil => simp [pwResultsFrom]
  | cons item rest ih =>
      cases i with
      | zero => simp [pwResultsFrom]
      | succ n =>
          have e : k + (n + 1) = (k + 1) + n := by omega
          simp only [pwResultsFrom, List.get?, e]
          exact ih (k + 1) n

lemma stProcessItem_ok_snd (env : StCall → Option String)
    (se : String → String → Except String ZType) (mc : ModelConn) (item : StItem)
    (h : exceptIsOk (stProcessItem env se mc item).2 = true) :
    (stProcessItem env se mc item).2 = Except.ok (stOkResult env se mc item) := by
  unfold stOkResult
  cases hr : (stProcessItem env se mc item).2 with
  | ok r => rfl
  | error e => rw [hr] at h; exact absurd h (by simp [exceptIsOk])

lemma stExecuteAux_results (env : Nat → StCall → Option String)
    (se : String → String → Except String ZType) (mc : ModelConn) :
    ∀ (k : Nat) (items : List StItem),
      (∀ i (hi : i < items.length),
        exceptIsOk (stProcessItem (env (k + i)) se mc (items.get ⟨i, hi⟩)).2 = true) →
      (stExecuteAux env se mc k items).2 = Except.ok (stResultsFrom env se mc k items) := by
  intro k items
  induction items generalizing k with
  | nil => intro _; rfl
  | cons item rest ih =>
      intro h
      have h0 := h 0 (by simp)
      simp only [Nat.add_zero, List.get] at h0
      have h1 := stProcessItem_ok_snd (env k) se mc item h0
      have h2 := ih (k + 1) (fun i hi => by
        have hs := h (i + 1) (by simpa using Nat.succ_lt_succ hi)
        have e : k + (i + 1) = (k + 1) + i := by omega
        rw [e] at hs
        exact hs)
      simp only [stExecuteAux, stResultsFrom, h1, h2]

lemma stResultsFrom_length (env : Nat → StCall → Option String)
    (se : String → String → Except String ZType) (mc : ModelConn) :
    ∀ (k : Nat) (items : List StItem),
      (stResultsFrom env se mc k items).length = items.length := by
  intro k items
  induction items generalizing k with
  | nil => rfl
  | cons item rest ih => simp [stResultsFrom, ih]

lemma stResultsFrom_getq (env : Nat → StCall → Option String)
    (se : String → String → Except String ZType) (mc : ModelConn) :
    ∀ (k i : Nat) (items : List StItem),
      (stResultsFrom env se mc k items).get? i =
        (items.get? i).map (stOkResult (env (k + i)) se mc) := by
  intro k i items
  induction items generalizing k i with
  | nil => simp [stResultsFrom]
  | cons item rest ih =>
      cases i with
      | zero => simp [stResultsFrom]
      | succ n =>
          have e : k + (n + 1) = (k + 1) + n := by omega
          simp only [stResultsFrom, List.get?, e]
          exact ih (k + 1) n

lemma recordSet_notmem (s : List (String × ZType)) (k : String) (v : ZType) :
    k ∉ s.map Prod.fst → recordSet s k v = s ++ [(k, v)] := by
  induction s with
  | nil => intro _; rfl
  | cons hd tl ih =>
      intro h
      obtain ⟨k', v'⟩ := hd
      simp only [List.map_cons, List.mem_cons] at h
      push_neg at h
      simp only [recordSet, if_neg (fun hh : k' = k => h.1 hh.symm)]
      rw [ih h.2]
      rfl

lemma foldl_recordSet_eq_append :
    ∀ (fields : List StField) (s : List (String × ZType)),
      (∀ f ∈ fields, f.fieldName ∉ s.map Prod.fst) →
      (fields.map StField.fieldName).Nodup →
      fields.foldl (fun shape f => recordSet shape f.fieldName (fieldResolve f)) s =
        s ++ fields.map (fun g => (g.fieldName, fieldResolve g)) := by
  intro fields
  induction fields with
  | nil => intro s _ _; simp
  | cons g rest ih =>
      intro s hdisj hnd
      have hgname : g.fieldName ∉ s.map Prod.fst := hdisj g (List.mem_cons_self g rest)
      rw [List.foldl_cons, recordSet_notmem s g.fieldName (fieldResolve g) hgname,
        ih (s ++ [(g.fieldName, fieldResolve g)]) ?_ (List.nodup_cons.mp hnd).2]
      · simp
      · intro f hf
        have h1 := hdisj f (List.mem_cons_of_mem g hf)
        have h2 : f.fieldName ≠ g.fieldName := by
          intro hEq
          exact (List.nodup_cons.mp hnd).1 (hEq ▸ List.mem_map.mpr ⟨f, hf, rfl⟩)
        simp [h1, h2]

lemma lookup_map_resolve :
    ∀ (fields : List StField) (f : StField), f ∈ fields →
      (fields.map StField.fieldName).Nodup →
      List.lookup f.fieldName (fields.map (fun g => (g.fieldName, fieldResolve g))) =
        some (fieldResolve f) := by
  intro fields
  induction fields with
  | nil => intro f hf _; exact absurd hf (List.not_mem_nil f)
  | cons g rest ih =>
      intro f hf hnd
      rcases List.mem_cons.mp hf with h | h
      · subst h
        simp [List.lookup]
      · have hnd2 : (rest.map StField.fieldName).Nodup := (List.nodup_cons.mp hnd).2
        have hne : f.fieldName ≠ g.fieldName := by
          intro hEq
          exact (List.nodup_cons.mp hnd).1 (hEq ▸ List.mem_map.mpr ⟨f, h, rfl⟩)
        simp [List.lookup, beq_eq_false_iff_ne.mpr hne, ih f h hnd2]

lemma zodShape_fieldsToZodSchema (fields : List StField)
    (hnd : (fields.map StField.fieldName).Nodup) :
    zodShape (fieldsToZodSchema fields) =
      fields.map (fun g => (g.fieldName, fieldResolve g)) := by
  unfold fieldsToZodSchema zodShape
  rw [foldl_recordSet_eq_append fields [] (by simp) hnd]
  simp

lemma recordSet_keys (s : List (String × ZType)) (k : String) (v : ZType) :
    (recordSet s k v).map Prod.fst =
      if k ∈ s.map Prod.fst then s.map Prod.fst else s.map Prod.fst ++ [k] := by
  induction s with
  | nil => simp [recordSet]
  | cons hd tl ih =>
      obtain ⟨k', v'⟩ := hd
      by_cases hk : k' = k
      · subst hk
        simp [recordSet]
      · simp only [recordSet, if_neg hk, List.map_cons, ih]
        by_cases hm : k ∈ tl.map Prod.fst
        · simp [hm, Ne.symm hk]
        · simp [hm, Ne.symm hk]

lemma recordSet_keys_nodup (s : List (String × ZType)) (k : String) (v : ZType)
    (h : (s.map Prod.fst).Nodup) : ((recordSet s k v).map Prod.fst).Nodup := by
  rw [recordSet_keys]
  split_ifs with hm
  · exact h
  · refine List.Nodup.append h (List.nodup_singleton k) ?_
    intro a ha hmem
    rw [List.mem_singleton] at hmem
    exact hm (hmem ▸ ha)

lemma foldl_recordSet_keys_nodup :
    ∀ (fields : List StField) (s : List (String × ZType)),
      (s.map Prod.fst).Nodup →
      (((fields.foldl (fun shape f => recordSet shape f.fieldName (fieldResolve f)) s)).map
        Prod.fst).Nodup := by
  intro fields
  induction fields with
  | nil => intro s h; exact h
  | cons g rest ih =>
      intro s h
      rw [List.foldl_cons]
      exact ih _ (recordSet_keys_nodup s g.fieldName (fieldResolve g) h)

lemma pwDispatch_screenshot (item : PwItem) (hop : item.operation = "screenshot") :
    pwDispatch item =
      Except.ok (PwAction.screenshot item.fullPage item.quality item.timeout,
        ResultItem.ok item.operation none true) := by
  unfold pwDispatch
  rw [hop]
  simp

lemma pwDispatch_loadstate_bad (item : PwItem) (hop : item.operation = "waitForLoadState")
    (h1 : item.state ≠ "load") (h2 : item.state ≠ "domcontentloaded")
    (h3 : item.state ≠ "networkidle") :
    pwDispatch item = Except.error ("Unsupported load state: " ++ item.state) := by
  unfold pwDispatch
  rw [hop]
  simp [h1, h2, h3]

lemma pwDispatch_unknown (item : PwItem) (hop : ∀ s ∈ pwKnownOperations, item.operation ≠ s) :
    pwDispatch item = Except.error ("Unsupported operation: " ++ item.operation) := by
  unfold pwDispatch
  simp [hop "goto" (by decide), hop "screenshot" (by decide), hop "click" (by decide),
    hop "fill" (by decide), hop "type" (by decide), hop "selectOption" (by decide),
    hop "press" (by decide), hop "waitForTimeout" (by decide),
    hop "waitForSelector" (by decide), hop "waitForLoadState" (by decide),
    hop "evaluate" (by decide)]

lemma pwOkResult_body_err (env : PwCall → Option String) (execPath : String) (item : PwItem)
    (hop : item.operation ≠ "executablePath")
    (hconn : env (PwCall.connect item.cdpUrl) = none) (e : String)
    (hb : (pwBody env item).2 = Except.error e) :
    pwOkResult env execPath item = ResultItem.err e := by
  unfold pwOkResult pwProcessItem
  rw [if_neg hop, hconn, hb]

lemma stChecks_ok_valid (m : Option ModelConn) (mc : ModelConn)
    (h : stChecks m = Except.ok mc) : isValidCred m = true := by
  cases m with
  | none => simp [stChecks, isChatInstance] at h
  | some mcc =>
      unfold stChecks at h
      cases hchat : isChatInstance (some mcc) with
      | false => rw [hchat] at h; simp at h
      | true =>
          rw [hchat] at h
          simp only [if_true] at h
          split_ifs at h with h1 h2 h3 h4
          all_goals
            first
              | exact Except.noConfusion h
              | (injection h with hmc
                 subst hmc
                 unfold isValidCred
                 rw [hchat]
                 simp only [Bool.not_eq_false] at h3 h4
                 simp [h3, h4])

/-- C1 (amended): every successfully acquired session is released exactly once
before the next item, except on one Playwright path: when `newContext()` or
`newPage()` rejects after a successful `connectOverCDP` (both sit outside the
try/finally), the connected browser is never closed and the batch aborts. So
acquire and release counts are equal after any Stagehand run and after any
Playwright run in which the post-connect setup does not reject, and in every
Playwright run releases never exceed acquires. -/
theorem session_release_balanced_unless_setup_fails :
    (∀ (env : PwCall → Option String) (execPath : String) (item : PwItem),
      env PwCall.newContext = none → env PwCall.newPage = none →
      pwAcquires (pwProcessItemFull env execPath item).1 =
        pwReleases (pwProcessItemFull env execPath item).1) ∧
    (∀ (env : Nat → PwCall → Option String) (execPath : String) (items : List PwItem),
      (∀ i, env i PwCall.newContext = none) → (∀ i, env i PwCall.newPage = none) →
      pwAcquires (pwExecuteFull env execPath items).1 =
        pwReleases (pwExecuteFull env execPath items).1) ∧
    (∀ (env : Nat → PwCall → Option String) (execPath : String) (items : List PwItem),
      pwReleases (pwExecuteFull env execPath items).1 ≤
        pwAcquires (pwExecuteFull env execPath items).1) ∧
    (∀ (env : StCall → Option String) (se : String → String → Except String ZType)
      (mc : ModelConn) (item : StItem),
      stAcquires (stProcessItem env se mc item).1 =
        stReleases (stProcessItem env se mc item).1) ∧
    ∀ (model : Option ModelConn) (env : Nat → StCall → Option String)
      (se : String → String → Except String ZType) (items : List StItem),
      stAcquires (stExecute model env se items).1 =
        stReleases (stExecute model env se items).1 := by
  refine ⟨fun env p it hc hp => pwProcessItemFull_balanced env p it hc hp,
    fun env p items hc hp => pwExecuteFullAux_balanced env p hc hp 0 items,
    fun env p items => pwExecuteFullAux_rel_le env p 0 items,
    fun env se mc it => stProcessItem_balanced env se mc it, ?_⟩
  intro model env se items
  unfold stExecute
  cases hs : stChecks model with
  | error e => rfl
  | ok mc => exact stExecuteAux_balanced env se mc 0 items

/-- C1 witness: under an all-success environment a one-item Playwright run has
equal acquire and release counts (one of each). -/
theorem session_release_balanced_unless_setup_fails_witness :
    pwAcquires (pwExecuteFull pwOkEnv "chromium" [pwSampleItem]).1 =
      pwReleases (pwExecuteFull pwOkEnv "chromium" [pwSampleItem]).1 ∧
    pwAcquires (pwExecuteFull pwOkEnv "chromium" [pwSampleItem]).1 = 1 :=
  ⟨session_release_balanced_unless_setup_fails.2.1 pwOkEnv "chromium" [pwSampleItem]
      (fun _ => rfl) (fun _ => rfl),
    rfl⟩

/-- C1 counterexample: when `context.newPage()` rejects after a successful
`connectOverCDP` and context setup, the run shows one successful acquire and
zero releases — the connected browser is never closed, because the setup calls
sit outside the try/finally — and the batch aborts with the exception. -/
theorem pw_setup_failure_leaks_session :
    pwAcquires (pwExecuteFull pwPageFailEnv "chromium" [pwSampleItem]).1 = 1 ∧
    pwReleases (pwExecuteFull pwPageFailEnv "chromium" [pwSampleItem]).1 = 0 ∧
    (pwExecuteFull pwPageFailEnv "chromium" [pwSampleItem]).1 =
      [(PwCall.connect "ws://localhost:9222", none), (PwCall.newContext, none),
       (PwCall.newPage, some "Target closed")] ∧
    (pwExecuteFull pwPageFailEnv "chromium" [pwSampleItem]).2 =
      Except.error "Target closed" :=
  ⟨rfl, rfl, rfl, rfl⟩

/-- C2 (amended): in the Playwright node, when session acquisition succeeds for
each item, a failure during action invocation on item i is caught at the
per-item boundary and recorded as an error result at index i, and the batch
still returns one result per input item; in the Stagehand node there is no
per-item catch, so an action failure closes the session and then propagates,
aborting the batch (see the counterexample). -/
theorem pw_action_failure_contained (env : Nat → PwCall → Option String) (execPath : String)
    (items : List PwItem) (hconn : ∀ i u, env i (PwCall.connect u) = none) :
    (pwExecute env execPath items).2 = Except.ok (pwResultsFrom env execPath 0 items) ∧
    (pwResultsFrom env execPath 0 items).length = items.length ∧
    ∀ i item e, items.get? i = some item → item.operation ≠ "executablePath" →
      (pwBody (env i) item).2 = Except.error e →
      (pwResultsFrom env execPath 0 items).get? i = some (ResultItem.err e) := by
  refine ⟨pwExecuteAux_results env execPath hconn 0 items,
    pwResultsFrom_length env execPath 0 items, ?_⟩
  intro i item e hget hop hbody
  have hq := pwResultsFrom_getq env execPath 0 i items
  rw [hget] at hq
  simp only [Nat.zero_add, Option.map_some'] at hq
  rw [hq, pwOkResult_body_err (env i) execPath item hop (hconn i item.cdpUrl) e hbody]

/-- C2 witness: a click whose selector lookup rejects yields the error record
for that item while the run still returns a full result list. -/
theorem pw_action_failure_contained_witness :
    (pwExecute pwClickFailEnv "chromium" [pwClickItem]).2 =
      Except.ok [ResultItem.err "selector not found"] ∧
    ((pwExecute pwClickFailEnv "chromium" [pwClickItem]).2 =
        Except.ok (pwResultsFrom pwClickFailEnv "chromium" 0 [pwClickItem]) ∧
      (pwResultsFrom pwClickFailEnv "chromium" 0 [pwClickItem]).length = 1 ∧
      ∀ i item e, [pwClickItem].get? i = some item → item.operation ≠ "executablePath" →
        (pwBody (pwClickFailEnv i) item).2 = Except.error e →
        (pwResultsFrom pwClickFailEnv "chromium" 0 [pwClickItem]).get? i =
          some (ResultItem.err e)) :=
  ⟨rfl, pw_action_failure_contained pwClickFailEnv "chromium" [pwClickItem] (fun _ _ => rfl)⟩

/-- C2 counterexample: in the Stagehand node a rejected `page.act` on item 0 of
a two-item batch propagates out of the loop after the session is closed: the
run returns the exception, not a result list, and item 1 is never processed
(the trace stops at the first item's close). -/
theorem st_action_failure_aborts_batch :
    (stExecute (some mcSample) stActFailEnv seSample [stSampleItem, stSampleItem]).2 =
      Except.error "act failed" ∧
    (stExecute (some mcSample) stActFailEnv seSample [stSampleItem, stSampleItem]).1 =
      [(StCall.init "ws://localhost:9222" "openai/gpt-4o" true, none),
       (StCall.action (StAction.act "click the button"), some "act failed"),
       (StCall.close, none)] :=
  ⟨rfl, rfl⟩

/-- C3 (amended): the batch runner returns exactly one result per input item in
input order provided no exception propagates: for the Playwright node this
needs every session acquisition to succeed (action failures are fine, they are
caught per item); for the Stagehand node it additionally needs every item's
processing to complete without propagation, since there is no per-item catch.
A propagating failure aborts the batch and returns no result list (see the
counterexample). -/
theorem execute_one_result_per_item
    (envP : Nat → PwCall → Option String) (execPath : String) (itemsP : List PwItem)
    (hconn : ∀ i u, envP i (PwCall.connect u) = none)
    (model : Option ModelConn) (mc : ModelConn)
    (envS : Nat → StCall → Option String) (se : String → String → Except String ZType)
    (itemsS : List StItem) (hm : stChecks model = Except.ok mc)
    (hok : ∀ i (hi : i < itemsS.length),
      exceptIsOk (stProcessItem (envS i) se mc (itemsS.get ⟨i, hi⟩)).2 = true) :
    (pwExecute envP execPath itemsP).2 = Except.ok (pwResultsFrom envP execPath 0 itemsP) ∧
    (pwResultsFrom envP execPath 0 itemsP).length = itemsP.length ∧
    (∀ i, (pwResultsFrom envP execPath 0 itemsP).get? i =
      (itemsP.get? i).map (pwOkResult (envP i) execPath)) ∧
    (stExecute model envS se itemsS).2 = Except.ok (stResultsFrom envS se mc 0 itemsS) ∧
    (stResultsFrom envS se mc 0 itemsS).length = itemsS.length ∧
    ∀ i, (stResultsFrom envS se mc 0 itemsS).get? i =
      (itemsS.get? i).map (stOkResult (envS i) se mc) := by
  refine ⟨pwExecuteAux_results envP execPath hconn 0 itemsP,
    pwResultsFrom_length envP execPath 0 itemsP, ?_, ?_,
    stResultsFrom_length envS se mc 0 itemsS, ?_⟩
  · intro i
    simpa using pwResultsFrom_getq envP execPath 0 i itemsP
  · unfold stExecute
    rw [hm]
    exact stExecuteAux_results envS se mc 0 itemsS (fun i hi => by simpa using hok i hi)
  · intro i
    simpa using stResultsFrom_getq envS se mc 0 i itemsS

/-- C3 witness: a one-item run of each node under an all-success environment
returns exactly one result, at the index of its item. -/
theorem execute_one_result_per_item_witness :
    (pwExecute pwOkEnv "chromium" [pwSampleItem]).2 =
      Except.ok (pwResultsFrom pwOkEnv "chromium" 0 [pwSampleItem]) ∧
    (pwResultsFrom pwOkEnv "chromium" 0 [pwSampleItem]).length = 1 ∧
    (∀ i, (pwResultsFrom pwOkEnv "chromium" 0 [pwSampleItem]).get? i =
      ([pwSampleItem].get? i).map (pwOkResult (pwOkEnv i) "chromium")) ∧
    (stExecute (some mcSample) stOkEnv seSample [stSampleItem]).2 =
      Except.ok (stResultsFrom stOkEnv seSample mcSample 0 [stSampleItem]) ∧
    (stResultsFrom stOkEnv seSample mcSample 0 [stSampleItem]).length = 1 ∧
    ∀ i, (stResultsFrom stOkEnv seSample mcSample 0 [stSampleItem]).get? i =
      ([stSampleItem].get? i).map (stOkResult (stOkEnv i) seSample mcSample) :=
  execute_one_result_per_item pwOkEnv "chromium" [pwSampleItem] (fun _ _ => rfl)
    (some mcSample) mcSample stOkEnv seSample [stSampleItem] rfl
    (fun i hi => by
      have h0 : i = 0 := Nat.lt_one_iff.mp hi
      subst h0
      rfl)

/-- C3 counterexample: when `connectOverCDP` rejects (it is outside the try
block), the Playwright batch runner returns the propagated exception and no
result list at all, although it received one input item. -/
theorem pw_connect_failure_returns_no_results :
    (pwExecute pwFailConnEnv "chromium" [pwSampleItem]).2 = Except.error "ECONNREFUSED" ∧
    ∀ l : List ResultItem,
      (pwExecute pwFailConnEnv "chromium" [pwSampleItem]).2 ≠ Except.ok l := by
  refine ⟨rfl, ?_⟩
  intro l h
  rw [show (pwExecute pwFailConnEnv "chromium" [pwSampleItem]).2 =
      Except.error "ECONNREFUSED" from rfl] at h
  exact Except.noConfusion h

/-- C4 (amended): a request whose operation identifier is outside the dispatch
enumeration fails with the `Unsupported operation` error as a per-item error
record, but only after a session has been acquired: `connectOverCDP` runs
before the switch, so exactly one acquire (and one release) occurs for that
item; only `executablePath` short-circuits before acquisition. -/
theorem unknown_operation_fails_after_acquire (env : PwCall → Option String)
    (execPath : String) (item : PwItem)
    (hop : ∀ s ∈ pwKnownOperations, item.operation ≠ s)
    (hconn : env (PwCall.connect item.cdpUrl) = none) :
    pwProcessItem env execPath item =
      ([(PwCall.connect item.cdpUrl, none), (PwCall.close, none)],
        Except.ok (ResultItem.err ("Unsupported operation: " ++ item.operation))) ∧
    pwAcquires (pwProcessItem env execPath item).1 = 1 := by
  have hne : item.operation ≠ "executablePath" := hop "executablePath" (by decide)
  have hmain : pwProcessItem env execPath item =
      ([(PwCall.connect item.cdpUrl, none), (PwCall.close, none)],
        Except.ok (ResultItem.err ("Unsupported operation: " ++ item.operation))) := by
    unfold pwProcessItem pwBody
    rw [if_neg hne, hconn, pwDispatch_unknown item hop]
    rfl
  exact ⟨hmain, by rw [hmain]; rfl⟩

/-- C4 witness: the unknown operation `teleport` produces the unsupported
error record for its item, with exactly one session acquisition. -/
theorem unknown_operation_fails_after_acquire_witness :
    pwProcessItem (pwOkEnv 0) "chromium" pwTeleportItem =
      ([(PwCall.connect "ws://localhost:9222", none), (PwCall.close, none)],
        Except.ok (ResultItem.err "Unsupported operation: teleport")) ∧
    pwAcquires (pwProcessItem (pwOkEnv 0) "chromium" pwTeleportItem).1 = 1 :=
  unknown_operation_fails_after_acquire (pwOkEnv 0) "chromium" pwTeleportItem
    (by decide) rfl

/-- C4 counterexample: a run with the unknown operation `teleport` performs one
successful session acquisition, not zero as the claim states, before failing
with the unsupported-operation error. -/
theorem teleport_acquires_session :
    pwAcquires (pwExecute pwOkEnv "chromium" [pwTeleportItem]).1 = 1 ∧
    pwAcquires (pwExecute pwOkEnv "chromium" [pwTeleportItem]).1 ≠ 0 ∧
    (pwExecute pwOkEnv "chromium" [pwTeleportItem]).2 =
      Except.ok [ResultItem.err "Unsupported operation: teleport"] :=
  ⟨rfl, by decide, rfl⟩

/-- C5: schema resolution maps each field-list entry to a canonical field of
the stated kind under its own name, the `optional` flag choosing the
`.optional()` wrap; `array` entries resolve to `z.array(z.any())` (element
type unconstrained) and `object` entries to `z.object({}).passthrough()`
(open object), as recorded in `fieldTypeToZod`. -/
theorem fieldsToZodSchema_maps_each_entry (fields : List StField) (f : StField)
    (hf : f ∈ fields) (hnd : (fields.map StField.fieldName).Nodup) :
    List.lookup f.fieldName (zodShape (fieldsToZodSchema fields)) = some (fieldResolve f) := by
  rw [zodShape_fieldsToZodSchema fields hnd]
  exact lookup_map_resolve fields f hf hnd

/-- C5 witness: the example list resolves to a required string field `title`
and an optional unconstrained-array field `tags`. -/
theorem fieldsToZodSchema_example_witness :
    List.lookup "title" (zodShape (fieldsToZodSchema sampleFields)) = some ZType.zstring ∧
    List.lookup "tags" (zodShape (fieldsToZodSchema sampleFields)) =
      some (ZType.zoptional (ZType.zarray ZType.zany)) :=
  ⟨fieldsToZodSchema_maps_each_entry sampleFields
      { fieldName := "title", fieldType := "string", optional := false } (by decide) (by decide),
    fieldsToZodSchema_maps_each_entry sampleFields
      { fieldName := "tags", fieldType := "array", optional := true } (by decide) (by decide)⟩

/-- C6: when no valid ModelCredential (chat model with string model name and
string apiKey) is attached, `Stagehand.execute` fails in the asserts before
the loop: the run errors with an empty trace, so no session is initialized
for any item. -/
theorem invalid_model_fails_before_acquire (model : Option ModelConn)
    (env : Nat → StCall → Option String) (se : String → String → Except String ZType)
    (items : List StItem) (h : isValidCred model = false) :
    ∃ e, stExecute model env se items = ([], Except.error e) := by
  cases hs : stChecks model with
  | error e => exact ⟨e, by unfold stExecute; rw [hs]⟩
  | ok mc =>
      have hv := stChecks_ok_valid model mc hs
      rw [h] at hv
      exact absurd hv (by decide)

/-- C6 witness: with no model connection attached, a batch containing an act
request errors before any session initialization. -/
theorem invalid_model_fails_before_acquire_witness :
    isValidCred none = false ∧
    ∃ e, stExecute none stOkEnv seSample [stSampleItem] = ([], Except.error e) :=
  ⟨rfl, invalid_model_fails_before_acquire none stOkEnv seSample [stSampleItem] rfl⟩

/-- C7 (amended): the 0-100 bound on the screenshot quality exists only as UI
metadata (`typeOptions` min/max); `execute` performs no runtime validation of
the parameter. A capture-screenshot request connects to the browser and
invokes the screenshot call with whatever quality value it carries, in or out
of the declared bound. -/
theorem screenshot_quality_not_validated (env : PwCall → Option String) (execPath : String)
    (item : PwItem) (hop : item.operation = "screenshot")
    (hconn : env (PwCall.connect item.cdpUrl) = none) :
    (pwProcessItem env execPath item).1 =
      [(PwCall.connect item.cdpUrl, none),
       (PwCall.action (PwAction.screenshot item.fullPage item.quality item.timeout),
         env (PwCall.action (PwAction.screenshot item.fullPage item.quality item.timeout))),
       (PwCall.close, none)] := by
  have hne : item.operation ≠ "executablePath" := by rw [hop]; decide
  unfold pwProcessItem pwBody
  rw [if_neg hne, hconn, pwDispatch_screenshot item hop]
  simp [callStep_trace]

/-- C7 witness: quality 150 exceeds the declared maximum, yet the request
connects and the screenshot call is invoked with quality 150. -/
theorem screenshot_quality_not_validated_witness :
    pwQualityMaxValue < pwScreenshot150Item.quality ∧
    (pwProcessItem (pwOkEnv 0) "chromium" pwScreenshot150Item).1 =
      [(PwCall.connect "ws://localhost:9222", none),
       (PwCall.action (PwAction.screenshot false 150 30000), none),
       (PwCall.close, none)] :=
  ⟨by decide,
    screenshot_quality_not_validated (pwOkEnv 0) "chromium" pwScreenshot150Item rfl rfl⟩

/-- C7 counterexample: a capture-screenshot request with quality 150 is not
rejected before remote work: the run connects to the browser, invokes the
screenshot call with quality 150, and succeeds with a binary-carrying result
instead of a validation error. -/
theorem screenshot_quality150_not_rejected :
    pwQualityMaxValue < pwScreenshot150Item.quality ∧
    pwExecute pwOkEnv "chromium" [pwScreenshot150Item] =
      ([(PwCall.connect "ws://localhost:9222", none),
        (PwCall.action (PwAction.screenshot false 150 30000), none),
        (PwCall.close, none)],
       Except.ok [ResultItem.ok "screenshot" none true]) :=
  ⟨by decide, rfl⟩

/-- C8: a wait-for-load-state request whose state is outside the enumeration
load / domcontentloaded / networkidle fails with the `Unsupported load state`
error record and the underlying `waitForLoadState` action is never invoked:
the item's trace holds only the connect and the close. -/
theorem waitForLoadState_invalid_state_rejected (env : PwCall → Option String)
    (execPath : String) (item : PwItem) (hop : item.operation = "waitForLoadState")
    (h1 : item.state ≠ "load") (h2 : item.state ≠ "domcontentloaded")
    (h3 : item.state ≠ "networkidle")
    (hconn : env (PwCall.connect item.cdpUrl) = none) :
    pwProcessItem env execPath item =
      ([(PwCall.connect item.cdpUrl, none), (PwCall.close, none)],
        Except.ok (ResultItem.err ("Unsupported load state: " ++ item.state))) := by
  have hne : item.operation ≠ "executablePath" := by rw [hop]; decide
  unfold pwProcessItem pwBody
  rw [if_neg hne, hconn, pwDispatch_loadstate_bad item hop h1 h2 h3]
  rfl

/-- C8 witness: state `bogus` yields the unsupported-load-state error record
and a trace with no `waitForLoadState` call. -/
theorem waitForLoadState_invalid_state_rejected_witness :
    pwProcessItem (pwOkEnv 0) "chromium" pwBogusStateItem =
      ([(PwCall.connect "ws://localhost:9222", none), (PwCall.close, none)],
        Except.ok (ResultItem.err "Unsupported load state: bogus")) :=
  waitForLoadState_invalid_state_rejected (pwOkEnv 0) "chromium" pwBogusStateItem rfl
    (by decide) (by decide) (by decide) rfl

/-- C9: the shape produced by `fieldsToZodSchema` has no duplicate field names
for any input field list: JS object key assignment overwrites, so a duplicate
input name cannot yield duplicate keys in the resolved schema. -/
theorem fieldsToZodSchema_keys_nodup (fields : List StField) :
    ((zodShape (fieldsToZodSchema fields)).map Prod.fst).Nodup := by
  unfold fieldsToZodSchema zodShape
  exact foldl_recordSet_keys_nodup fields [] (by simp)

/-- C10 (amended): `type` dispatches to the same underlying `page.fill` call
with the same arguments as `fill` (the shared switch case): the remote-call
traces are identical, and the results are identical except that the success
record's operation label echoes the requested operation name. -/
theorem fill_type_same_action_relabelled (env : PwCall → Option String) (execPath : String)
    (base : PwItem) :
    (pwProcessItem env execPath { base with operation := "type" }).1 =
      (pwProcessItem env execPath { base with operation := "fill" }).1 ∧
    (pwProcessItem env execPath { base with operation := "type" }).2 =
      relabelResult "type" (pwProcessItem env execPath { base with operation := "fill" }).2 := by
  have hdf : pwDispatch { base with operation := "fill" } =
      Except.ok (PwAction.fill base.selector base.text base.timeout,
        ResultItem.ok "fill" none false) := by
    unfold pwDispatch
    simp
  have hdt : pwDispatch { base with operation := "type" } =
      Except.ok (PwAction.fill base.selector base.text base.timeout,
        ResultItem.ok "type" none false) := by
    unfold pwDispatch
    simp
  unfold pwProcessItem pwBody
  rw [hdf, hdt]
  cases henv : env (PwCall.connect base.cdpUrl) with
  | some e => simp [henv, relabelResult]
  | none =>
      cases hact : env (PwCall.action (PwAction.fill base.selector base.text base.timeout)) with
      | some e => simp [henv, hact, callStep, relabelResult]
      | none => simp [henv, hact, callStep, relabelResult]

/-- C10 counterexample: with identical parameters and an all-success
environment, the fill and type requests make identical remote calls but do not
produce the same OperationResult: the result record echoes the operation name,
`fill` versus `type`. -/
theorem fill_type_results_differ :
    (pwProcessItem (pwOkEnv 0) "chromium" pwFillItem).2 =
      Except.ok (ResultItem.ok "fill" none false) ∧
    (pwProcessItem (pwOkEnv 0) "chromium" pwTypeItem).2 =
      Except.ok (ResultItem.ok "type" none false) ∧
    ResultItem.ok "fill" none false ≠ ResultItem.ok "type" none false ∧
    (pwProcessItem (pwOkEnv 0) "chromium" pwFillItem).1 =
      (pwProcessItem (pwOkEnv 0) "chromium" pwTypeItem).1 :=
  ⟨rfl, rfl, by decide, rfl⟩
